import Mathlib

/-!
Verification of the genesys image pipeline (backend/genesys_image_pipeline.h).

The repository ships the pipeline header, which contains the node class
declarations, the declared-geometry accessors (get_width / get_height /
get_format), the pipeline-stack push and pull members, and the plain
callable source. The bodies of the remaining get_next_row_data operations
live in a translation unit that is not part of the sources here; where a
claim depends on such a body, the corresponding definition below is
modelled from the specification and says so in its doc comment. All other
definitions are direct shallow embeddings of the header code.

Rows are modelled as lists of natural numbers (byte values); multi-channel
rows are lists of channel tuples. Fallible operations return Except or an
explicit outcome type; the stateful cursor of the array source and the
stack node list are passed explicitly.
-/

namespace Genesys

/-- Pipeline-level runtime failures named by the specification. -/
inductive PipelineError
  | producerUnderrun
  | outOfData
deriving DecidableEq, Repr

/-- Failures of the pipeline stack construction contract. -/
inductive StackError
  | constructionError
  | emptyStackError
deriving DecidableEq, Repr

/-! ## C1: declared output heights of the desegment and merge nodes -/

/-- From genesys_image_pipeline.h line 226: the desegmentation node declares
height source_height / interleaved_lines (C++ size_t division, which
truncates). -/
def ImagePipelineNodeDesegment.get_height (source_height interleaved_lines : Nat) : Nat :=
  source_height / interleaved_lines

/-- From genesys_image_pipeline.h line 259: the merge-mono-lines node declares
height source_height / 3 (C++ size_t division, which truncates). -/
def ImagePipelineNodeMergeMonoLines.get_height (source_height : Nat) : Nat :=
  source_height / 3

/-- Modelled from the spec: the geometry precondition of the desegmentation /
deinterleave configuration. The spec requires the source height to be an exact
multiple of interleaved_lines; enforcement is not in the shipped header, which
only declares the truncating height, so the condition itself is taken from the
specification text. -/
def desegmentGeometryPrecondition (source_height interleaved_lines : Nat) : Prop :=
  interleaved_lines ∣ source_height

instance (h il : Nat) : Decidable (desegmentGeometryPrecondition h il) :=
  inferInstanceAs (Decidable (il ∣ h))

/-! ## C7 and C10: pipeline stack construction and pull -/

/-- From genesys_image_pipeline.h lines 389-396: push_first_node throws a
construction error when the node list is non-empty, otherwise appends the new
node; a throw happens before the append, so on failure the list is unchanged.
The result pairs the raised error (if any) with the resulting node list. -/
def ImagePipelineStack.push_first_node {α : Type} (nodes : List α) (node : α) :
    Option StackError × List α :=
  if nodes.isEmpty then (none, nodes ++ [node])
  else (some .constructionError, nodes)

/-- From genesys_image_pipeline.h lines 398-404: push_node first runs
ensure_node_exists and then appends a node built from the current top
(nodes_.back()). The body of ensure_node_exists is not in the shipped header;
modelled from the spec: it fails with EmptyStackError when the stack is empty.
On failure nothing is appended. -/
def ImagePipelineStack.push_node {α : Type} (nodes : List α) (mk : α → α) :
    Option StackError × List α :=
  match nodes.getLast? with
  | none => (some .emptyStackError, nodes)
  | some top => (none, nodes ++ [mk top])

/-- Outcome of a pull on the stack: a produced row, a reported error, or
undefined behavior (the C++ dereferences nodes_.back() on an empty vector). -/
inductive PullOutcome (ρ : Type)
  | ok (row : ρ)
  | error (e : StackError)
  | undefinedBehavior
deriving DecidableEq, Repr

/-- From genesys_image_pipeline.h lines 406-409: get_next_row_data delegates to
nodes_.back() with no emptiness check; calling back() on an empty vector is
undefined behavior in C++, modelled by the undefinedBehavior outcome. A node is
abstracted by the row its pull would produce. -/
def ImagePipelineStack.get_next_row_data {ρ : Type} (nodes : List ρ) : PullOutcome ρ :=
  match nodes.getLast? with
  | none => .undefinedBehavior
  | some top => .ok top

/-! ## C8: the plain callable source -/

/-- From genesys_image_pipeline.h lines 88-91: get_next_row_data of the plain
callable source invokes the producer once with get_row_bytes() and returns.
The producer is modelled as a function from the requested size to the list of
bytes it actually supplies; the node forwards that list with no verification of
its length and has no failure path. -/
def ImagePipelineNodeCallableSource.get_next_row_data
    (producer : Nat → List Nat) (row_bytes : Nat) : Except PipelineError (List Nat) :=
  .ok (producer row_bytes)

/-! ## C9: the array source -/

/-- Modelled from the spec: the body of
ImagePipelineNodeArraySource::get_next_row_data is not in src/ (the header,
lines 158-177, carries the data block and the next_row_ cursor); the spec says
rows are served from the fixed in-memory block by simple offset slicing and
that pulling beyond the configured height fails with OutOfData. The cursor is
passed and returned explicitly; it advances only on success. -/
def ImagePipelineNodeArraySource.get_next_row_data
    (data : List Nat) (row_bytes height next_row : Nat) :
    Except PipelineError (List Nat × Nat) :=
  if height ≤ next_row then .error .outOfData
  else .ok ((data.drop (row_bytes * next_row)).take row_bytes, next_row + 1)

/-- Cursor of the array source after n sequential calls starting from a fresh
node: it advances exactly when the call succeeds. -/
def ImagePipelineNodeArraySource.cursorAfter
    (data : List Nat) (row_bytes height : Nat) : Nat → Nat
  | 0 => 0
  | n + 1 =>
    match ImagePipelineNodeArraySource.get_next_row_data data row_bytes height
        (ImagePipelineNodeArraySource.cursorAfter data row_bytes height n) with
    | .ok (_, next) => next
    | .error _ => ImagePipelineNodeArraySource.cursorAfter data row_bytes height n

/-! ## C3: the desegmentation row reordering -/

/-- Modelled from the spec: the row reordering of
ImagePipelineNodeDesegment::get_next_row_data (its body is not in src/; the
header, lines 206-240, carries the configuration fields). With
interleaved_lines = 1 and pixels_per_chunk = segment_pixels, at one byte per
pixel, the source row is a sequence of physical chunks of segment_pixels
bytes each, and the output chunk at logical position i is the physical chunk
at index segment_order[i]. -/
def desegmentRow (segment_order : List Nat) (segment_pixels : Nat) (row : List Nat) :
    List Nat :=
  segment_order.flatMap (fun s => (row.drop (segment_pixels * s)).take segment_pixels)

/-- The desegmentation scenario source row of 40 bytes: the byte value at each
position equals segment_index * 10 + offset, where segment_index is the
logical index (the position in segment_order) of the physical chunk holding
that byte, and offset is the position within the chunk. -/
def desegmentScenarioRow : List Nat :=
  (List.range 40).map (fun p => [2, 0, 3, 1].indexOf (p / 10) * 10 + p % 10)

/-! ## C2: merging and splitting mono lines -/

/-- Modelled from the spec: the supported destination channel orders of the
merge node (the ColorOrder enumeration is declared outside src/; the spec
names RGB vs BGR as the configured orders). -/
inductive ColorOrder
  | RGB
  | BGR
deriving DecidableEq, Repr

/-- Modelled from the spec: how one pixel of the merged row stores the samples
of the three captured mono rows (r from the first, g from the second, b from
the third): the configured channel order determines which source row maps to
which stored channel position. -/
def mergePixel (order : ColorOrder) (r g b : Nat) : Nat × Nat × Nat :=
  match order with
  | .RGB => (r, g, b)
  | .BGR => (b, g, r)

/-- Modelled from the spec: ImagePipelineNodeMergeMonoLines::get_next_row_data
(body not in src/; the header, lines 252-271, declares the node): three
consecutive single-channel source rows become one interleaved multi-channel
row whose pixels are modelled as triples of stored channel values. -/
def mergeMonoRows (order : ColorOrder) :
    List Nat → List Nat → List Nat → List (Nat × Nat × Nat)
  | r :: rs, g :: gs, b :: bs => mergePixel order r g b :: mergeMonoRows order rs gs bs
  | _, _, _ => []

/-- Modelled from the spec: the sample of captured channel k (0 = first mono
row, 1 = second, 2 = third) stored in a pixel of a multi-channel row laid out
per the given order. -/
def splitPixelChannel (order : ColorOrder) (k : Nat) (p : Nat × Nat × Nat) : Nat :=
  match order, k with
  | .RGB, 0 => p.1
  | .RGB, 1 => p.2.1
  | .RGB, _ => p.2.2
  | .BGR, 0 => p.2.2
  | .BGR, 1 => p.2.1
  | .BGR, _ => p.1

/-- Modelled from the spec: ImagePipelineNodeSplitMonoLines::get_next_row_data
(body not in src/; the header, lines 274-293, declares the node and its
next_channel_ cursor): one multi-channel source row yields three
single-channel rows in turn, the inverse of the merge; the three rows
produced by three consecutive calls are listed in order. -/
def splitMonoRows (order : ColorOrder) (row : List (Nat × Nat × Nat)) :
    List (List Nat) :=
  [row.map (splitPixelChannel order 0),
   row.map (splitPixelChannel order 1),
   row.map (splitPixelChannel order 2)]

/-! ## C4: the component-shift node -/

/-- Pointwise zip of three lists, truncating to the shortest. -/
def zipWith3 {α β γ δ : Type} (f : α → β → γ → δ) : List α → List β → List γ → List δ
  | a :: as, b :: bs, c :: cs => f a b c :: zipWith3 f as bs cs
  | _, _, _ => []

/-- From genesys_image_pipeline.h line 303: the component-shift node declares
height source_height - extra_height_ (C++ size_t subtraction; heights are
non-negative, so Nat truncated subtraction matches the in-contract range). -/
def ImagePipelineNodeComponentShiftLines.get_height (source_height extra_height : Nat) :
    Nat :=
  source_height - extra_height

/-- Modelled from the spec: extra_height_ is set at construction (the
constructor body is not in src/) to the largest of the per-channel shifts. -/
def componentShiftExtraHeight (shift_r shift_g shift_b : Nat) : Nat :=
  max shift_r (max shift_g shift_b)

/-- Modelled from the spec:
ImagePipelineNodeComponentShiftLines::get_next_row_data (body not in src/; the
header, lines 296-315, declares the node and its rolling row buffer): for
output row r, the red samples are read from source row r + shift_r, the green
from r + shift_g and the blue from r + shift_b. Rows are lists of (r, g, b)
pixel triples; a missing source row reads as empty. -/
def componentShiftRow (img : List (List (Nat × Nat × Nat)))
    (shift_r shift_g shift_b r : Nat) : List (Nat × Nat × Nat) :=
  zipWith3 (fun a b c => (a.1, b.2.1, c.2.2))
    (img.getD (r + shift_r) []) (img.getD (r + shift_g) []) (img.getD (r + shift_b) [])

/-! ## C5: the format-conversion node -/

/-- Channel bit depths occurring in the pixel formats. -/
inductive ChannelDepth
  | d8
  | d16
deriving DecidableEq, Repr

/-- Modelled from the spec: a pixel format tag carrying the channel bit depth
and the storage order of the channel identifiers (the PixelFormat enumeration
itself is declared outside src/). A stored pixel is the list of its channel
samples in storage order. -/
structure PixelFormat where
  depth : ChannelDepth
  order : List Nat
deriving DecidableEq, Repr

/-- Widening of a stored channel sample to the canonical 16-bit range. -/
def decodeChannel : ChannelDepth → Nat → Nat
  | .d8, v => v * 257
  | .d16, v => v

/-- Narrowing of a canonical 16-bit channel value to the stored depth. -/
def encodeChannel : ChannelDepth → Nat → Nat
  | .d8, v => v / 257
  | .d16, v => v

/-- Canonical value of the channel with identifier c in a stored pixel of
format f. -/
def pixelChannel (f : PixelFormat) (p : List Nat) (c : Nat) : Nat :=
  decodeChannel f.depth (p.getD (f.order.indexOf c) 0)

/-- Modelled from the spec: the width-preserving channel-depth/order mapping
applied per pixel by the format-conversion node (the conversion body is not in
src/): every destination channel is encoded from the canonical value that the
source pixel holds for the same channel identifier. -/
def convertPixel (f g : PixelFormat) (p : List Nat) : List Nat :=
  g.order.map (fun c => encodeChannel g.depth (pixelChannel f p c))

/-- Modelled from the spec: ImagePipelineNodeFormatConvert::get_next_row_data
(body not in src/; the header, lines 181-201, declares the node, whose width
and height pass through from the source, lines 191-192) converts one source
row pixel by pixel. -/
def convertRow (f g : PixelFormat) (row : List (List Nat)) : List (List Nat) :=
  row.map (convertPixel f g)

/-- From genesys_image_pipeline.h line 191: get_width of the format-conversion
node returns the source width unchanged. -/
def ImagePipelineNodeFormatConvert.get_width (source_width : Nat) : Nat :=
  source_width

/-- From genesys_image_pipeline.h line 192: get_height of the format-conversion
node returns the source height unchanged. -/
def ImagePipelineNodeFormatConvert.get_height (source_height : Nat) : Nat :=
  source_height

/-! ## C6: the extract node -/

/-- Crops a list to w elements, zero-padding on the right when it is shorter. -/
def padTo (w : Nat) (l : List Nat) : List Nat :=
  l.take w ++ List.replicate (w - l.length) 0

/-- Modelled from the spec: ImagePipelineNodeExtract::get_next_row_data (body
not in src/; the header, lines 343-367, declares the node and its configured
rectangle): output row r is taken from source row r + offset_y, cropped
starting at column offset_x and zero-padded up to the configured width; rows
past the source exhaustion are zero-filled. -/
def extractRow (img : List (List Nat)) (offset_x offset_y width r : Nat) : List Nat :=
  if r + offset_y < img.length then
    padTo width ((img.getD (r + offset_y) []).drop offset_x)
  else
    List.replicate width 0

/-! ## Theorems -/

/-- Claim C1: the merge-mono-lines node declares output height floor(h/3); the
desegmentation node declares output height h / interleaved_lines, and that
declared height times interleaved_lines gives back h exactly when the
configuration meets the geometry precondition, so a non-exact source height is
a precondition violation (the declared height strictly truncates) rather than
an exact height. -/
theorem claim_C1_declared_heights (h il : Nat) :
    ImagePipelineNodeMergeMonoLines.get_height h = h / 3
    ∧ 3 * ImagePipelineNodeMergeMonoLines.get_height h ≤ h
    ∧ h < 3 * (ImagePipelineNodeMergeMonoLines.get_height h + 1)
    ∧ ImagePipelineNodeDesegment.get_height h il = h / il
    ∧ (desegmentGeometryPrecondition h il ↔
        ImagePipelineNodeDesegment.get_height h il * il = h) := by
  refine ⟨rfl, ?_, ?_, rfl, ?_⟩
  · exact Nat.mul_div_le h 3
  · simp only [ImagePipelineNodeMergeMonoLines.get_height]
    omega
  · constructor
    · intro hd
      exact Nat.div_mul_cancel hd
    · intro he
      exact Dvd.intro_left _ he

/-- Claim C7: push_first_node fails with a construction error on a non-empty
stack, push_node fails with a construction (empty-stack) error on an empty
stack, and in both failure cases the node list is unchanged. -/
theorem claim_C7_push_contract {α : Type} (nodes : List α) (node : α) (mk : α → α)
    (hne : nodes ≠ []) :
    ImagePipelineStack.push_first_node nodes node = (some .constructionError, nodes)
    ∧ ImagePipelineStack.push_node ([] : List α) mk = (some .emptyStackError, []) := by
  constructor
  · simp [ImagePipelineStack.push_first_node, List.isEmpty_iff, hne]
  · rfl

/-- Witness for claim C7 on a one-node stack of naturals. -/
theorem claim_C7_push_contract_wit :
    ImagePipelineStack.push_first_node [0] 1 = (some .constructionError, [0])
    ∧ ImagePipelineStack.push_node ([] : List Nat) id = (some .emptyStackError, []) :=
  claim_C7_push_contract [0] 1 id (by decide)

/-- Claim C10: pulling a row from an empty stack is not rejected with a
stack-emptiness (or any) error: get_next_row_data performs no emptiness check
and dereferencing the last node of an empty list is undefined behavior, in
contrast with push_node, which does report an empty-stack error. -/
theorem claim_C10_pull_empty_stack_undefined :
    ImagePipelineStack.get_next_row_data ([] : List (List Nat)) = .undefinedBehavior
    ∧ (∀ e : StackError,
        ImagePipelineStack.get_next_row_data ([] : List (List Nat)) ≠ .error e)
    ∧ ImagePipelineStack.push_node ([] : List (List Nat)) id
        = (some .emptyStackError, [])
    ∧ ∀ (nodes : List (List Nat)) (e : StackError),
        ImagePipelineStack.get_next_row_data nodes ≠ .error e := by
  refine ⟨rfl, ?_, rfl, ?_⟩
  · intro e hcontra
    cases hcontra
  · intro nodes e hcontra
    unfold ImagePipelineStack.get_next_row_data at hcontra
    cases hlast : nodes.getLast? <;> rw [hlast] at hcontra <;> cases hcontra

/-- Claim C8 counterexample: a producer that supplies 0 of the 3 requested
bytes does not make the plain callable source fail: the call returns
successfully with the short data and no ProducerUnderrun (or any) error is
raised. -/
theorem claim_C8_counterexample :
    ((fun _ => ([] : List Nat)) 3).length < 3
    ∧ ImagePipelineNodeCallableSource.get_next_row_data (fun _ => []) 3
        = .ok []
    ∧ ∀ e : PipelineError,
        ImagePipelineNodeCallableSource.get_next_row_data (fun _ => []) 3
          ≠ .error e :=
  ⟨by decide, rfl, fun e hcontra => by cases hcontra⟩

/-- Claim C8 amended: the plain callable source requests exactly row_bytes
bytes and returns whatever the producer supplied, performing no size
verification; in particular a producer that under-delivers does not cause any
error — exact-size delivery is an unchecked contract on the producer, not a
detected ProducerUnderrun failure. -/
theorem claim_C8_no_underrun_detection (producer : Nat → List Nat) (row_bytes : Nat)
    (hunder : (producer row_bytes).length < row_bytes) :
    ImagePipelineNodeCallableSource.get_next_row_data producer row_bytes
      = .ok (producer row_bytes)
    ∧ ∀ e : PipelineError,
        ImagePipelineNodeCallableSource.get_next_row_data producer row_bytes
          ≠ .error e :=
  ⟨rfl, fun e hcontra => by cases hcontra⟩

/-- Witness for the amended claim C8 at an under-delivering producer. -/
theorem claim_C8_no_underrun_detection_wit :
    ImagePipelineNodeCallableSource.get_next_row_data (fun _ => [7]) 4
      = .ok ((fun _ => [7]) 4)
    ∧ ∀ e : PipelineError,
        ImagePipelineNodeCallableSource.get_next_row_data (fun _ => [7]) 4
          ≠ .error e :=
  claim_C8_no_underrun_detection (fun _ => [7]) 4 (by decide)

/-- Helper: element j of a three-list zip combines element j of each input. -/
theorem zipWith3_getElem? {α β γ δ : Type} (f : α → β → γ → δ) :
    ∀ (as : List α) (bs : List β) (cs : List γ) (j : Nat),
      (zipWith3 f as bs cs)[j]? =
        as[j]?.bind (fun a => bs[j]?.bind (fun b => cs[j]?.map (f a b))) := by
  intro as
  induction as with
  | nil => intro bs cs j; simp [zipWith3]
  | cons x xs ih =>
    intro bs cs j
    cases bs with
    | nil => simp [zipWith3]
    | cons y ys =>
      cases cs with
      | nil => simp [zipWith3]
      | cons z zs =>
        cases j with
        | zero => simp [zipWith3]
        | succ j =>
          simp only [zipWith3, List.getElem?_cons_succ]
          exact ih ys zs j

/-- Helper: zipping a row of pixel triples with itself and reassembling the
three projections gives back the row. -/
theorem zipWith3_self_proj (l : List (Nat × Nat × Nat)) :
    zipWith3 (fun a b c => (a.1, b.2.1, c.2.2)) l l l = l := by
  induction l with
  | nil => rfl
  | cons p ps ih => simp [zipWith3, ih]

/-- Helper: looking every channel identifier of a nodup order list up by its
index reassembles the stored pixel. -/
theorem map_lookup_self (ord p : List Nat) (hnd : ord.Nodup)
    (hlen : p.length = ord.length) :
    ord.map (fun c => p.getD (ord.indexOf c) 0) = p := by
  apply List.ext_getElem
  · simp [hlen]
  · intro i h1 h2
    simp only [List.getElem_map]
    rw [List.indexOf_getElem hnd]
    have hip : i < p.length := by
      simp only [List.length_map] at h1
      omega
    exact List.getD_eq_getElem p 0 hip

/-- Helper: narrowing after widening returns the stored channel sample. -/
theorem encode_decode (d : ChannelDepth) (v : Nat) :
    encodeChannel d (decodeChannel d v) = v := by
  cases d
  · show v * 257 / 257 = v
    omega
  · rfl

/-- Helper: the cursor of the array source after n sequential calls is
min n height. -/
theorem cursorAfter_eq_min (data : List Nat) (rb h n : Nat) :
    ImagePipelineNodeArraySource.cursorAfter data rb h n = min n h := by
  induction n with
  | zero => simp [ImagePipelineNodeArraySource.cursorAfter]
  | succ n ih =>
    unfold ImagePipelineNodeArraySource.cursorAfter
    rw [ih]
    unfold ImagePipelineNodeArraySource.get_next_row_data
    rcases le_or_lt h (min n h) with hc | hc
    · simp only [if_pos hc]
      omega
    · simp only [if_neg (Nat.not_le.mpr hc)]
      omega

/-- Claim C9: starting from a fresh array source of the configured height,
each of the first height sequential calls to get_next_row_data returns the
next row of the fixed in-memory block by offset slicing, and every call after
the height-th fails with OutOfData instead of returning data. -/
theorem claim_C9_array_source_rows (data : List Nat) (rb h n : Nat) :
    ImagePipelineNodeArraySource.get_next_row_data data rb h
        (ImagePipelineNodeArraySource.cursorAfter data rb h n)
      = if h ≤ n then .error .outOfData
        else .ok ((data.drop (rb * n)).take rb, n + 1) := by
  rw [cursorAfter_eq_min]
  unfold ImagePipelineNodeArraySource.get_next_row_data
  rcases le_or_lt h n with hc | hc
  · rw [if_pos (by omega), if_pos hc]
  · have hmin : min n h = n := by omega
    rw [if_neg (by omega), if_neg (by omega), hmin]

/-- Claim C3: for segment_order = [2, 0, 3, 1], segment_pixels = 10 (with
interleaved_lines = 1 and pixels_per_chunk = 10), desegmenting the 40-byte
scenario row whose byte values are segment_index * 10 + offset yields the
bytes 0..39 in ascending order. -/
theorem claim_C3_desegment_scenario :
    desegmentRow [2, 0, 3, 1] 10 desegmentScenarioRow = List.range 40 := by
  decide

/-- Claim C2: for every supported channel order, merging three single-channel
rows of equal length and then splitting the merged row reproduces the three
original rows byte-for-byte and in the original order. -/
theorem claim_C2_merge_split_roundtrip (order : ColorOrder) (r0 r1 r2 : List Nat)
    (h01 : r0.length = r1.length) (h02 : r0.length = r2.length) :
    splitMonoRows order (mergeMonoRows order r0 r1 r2) = [r0, r1, r2] := by
  induction r0 generalizing r1 r2 with
  | nil =>
    cases r1 with
    | nil =>
      cases r2 with
      | nil => cases order <;> rfl
      | cons z zs => simp at h02
    | cons y ys => simp at h01
  | cons x xs ih =>
    cases r1 with
    | nil => simp at h01
    | cons y ys =>
      cases r2 with
      | nil => simp at h02
      | cons z zs =>
        have hrec := ih ys zs (by simpa using h01) (by simpa using h02)
        cases order <;>
          simp_all [mergeMonoRows, splitMonoRows, mergePixel, splitPixelChannel]

/-- Claim C4: the component-shift node declares output height equal to the
source height minus the maximum shift; pixel j of output row r combines the
red sample of source row r + shift_r, the green sample of source row
r + shift_g and the blue sample of source row r + shift_b at that column; and
with all shifts zero the declared height equals the source height and every
output row equals the corresponding source row. -/
theorem claim_C4_component_shift (img : List (List (Nat × Nat × Nat)))
    (sr sg sb h r : Nat) :
    ImagePipelineNodeComponentShiftLines.get_height h (componentShiftExtraHeight sr sg sb)
        = h - max sr (max sg sb)
    ∧ (∀ j : Nat, (componentShiftRow img sr sg sb r)[j]? =
        (img.getD (r + sr) [])[j]?.bind (fun a =>
          (img.getD (r + sg) [])[j]?.bind (fun b =>
            (img.getD (r + sb) [])[j]?.map (fun c => (a.1, b.2.1, c.2.2)))))
    ∧ ImagePipelineNodeComponentShiftLines.get_height h (componentShiftExtraHeight 0 0 0) = h
    ∧ componentShiftRow img 0 0 0 r = img.getD r [] := by
  refine ⟨rfl, ?_, ?_, ?_⟩
  · intro j
    exact zipWith3_getElem? _ _ _ _ j
  · simp [ImagePipelineNodeComponentShiftLines.get_height, componentShiftExtraHeight]
  · simp [componentShiftRow, zipWith3_self_proj]

/-- Claim C5: when the destination format equals the source format, the
format-conversion node maps every row to itself (identity law), and its
declared width and height pass through from the source unchanged. -/
theorem claim_C5_format_convert_identity (f : PixelFormat) (row : List (List Nat))
    (hnd : f.order.Nodup) (hlen : ∀ p ∈ row, p.length = f.order.length) :
    convertRow f f row = row
    ∧ (∀ w : Nat, ImagePipelineNodeFormatConvert.get_width w = w)
    ∧ (∀ h : Nat, ImagePipelineNodeFormatConvert.get_height h = h) := by
  refine ⟨?_, fun w => rfl, fun h => rfl⟩
  have hpix : ∀ p ∈ row, convertPixel f f p = p := by
    intro p hp
    show f.order.map (fun c => encodeChannel f.depth (pixelChannel f p c)) = p
    calc f.order.map (fun c => encodeChannel f.depth (pixelChannel f p c))
        = f.order.map (fun c => p.getD (f.order.indexOf c) 0) := by
          apply List.map_congr_left
          intro c hc
          simp [pixelChannel, encode_decode]
      _ = p := map_lookup_self f.order p hnd (hlen p hp)
  show row.map (convertPixel f f) = row
  calc row.map (convertPixel f f)
      = row.map id := List.map_congr_left hpix
    _ = row := List.map_id row

/-- Witness for claim C5 at an 8-bit three-channel format and a two-pixel
row. -/
theorem claim_C5_format_convert_identity_wit :
    convertRow ⟨.d8, [0, 1, 2]⟩ ⟨.d8, [0, 1, 2]⟩ [[1, 2, 3], [4, 5, 6]]
        = [[1, 2, 3], [4, 5, 6]]
    ∧ (∀ w : Nat, ImagePipelineNodeFormatConvert.get_width w = w)
    ∧ (∀ h : Nat, ImagePipelineNodeFormatConvert.get_height h = h) :=
  claim_C5_format_convert_identity ⟨.d8, [0, 1, 2]⟩ [[1, 2, 3], [4, 5, 6]]
    (by decide) (by decide)

/-- Claim C6: the extract node configured with offset_x = 0, offset_y = 0, the
source width and the source height produces, for every row index within the
source height, a row identical to the source row at that index. -/
theorem claim_C6_extract_identity (img : List (List Nat)) (w r : Nat)
    (hw : ∀ row ∈ img, row.length = w) (hr : r < img.length) :
    extractRow img 0 0 w r = img.getD r [] := by
  unfold extractRow
  rw [if_pos (by omega)]
  have hmem : img.getD r [] ∈ img := by
    rw [List.getD_eq_getElem img [] hr]
    exact List.getElem_mem _
  have hlen : (img.getD r []).length = w := hw _ hmem
  show padTo w ((img.getD (r + 0) []).drop 0) = img.getD r []
  rw [Nat.add_zero, List.drop_zero]
  unfold padTo
  rw [List.take_of_length_le (le_of_eq hlen), hlen, Nat.sub_self]
  simp

/-- Witness for claim C6 at a two-row source of width two. -/
theorem claim_C6_extract_identity_wit :
    extractRow [[1, 2], [3, 4]] 0 0 2 1 = [[1, 2], [3, 4]].getD 1 [] :=
  claim_C6_extract_identity [[1, 2], [3, 4]] 2 1 (by decide) (by decide)

/-- Witness for claim C2 at two-pixel rows in BGR order. -/
theorem claim_C2_merge_split_roundtrip_wit :
    splitMonoRows .BGR (mergeMonoRows .BGR [1, 2] [3, 4] [5, 6])
      = [[1, 2], [3, 4], [5, 6]] :=
  claim_C2_merge_split_roundtrip .BGR [1, 2] [3, 4] [5, 6] (by decide) (by decide)

end Genesys
